import Mathlib

/-!
Shallow embedding of the scheduling and lifecycle controller implemented in
health_check_core.py (class HealthCheckAutomation).

Modelling conventions:
* Timestamps, delays and sleep durations are rationals (seconds), matching the
  float seconds of time.time and datetime.timestamp.
* A wall-clock instant is split into the timestamp of the current day's
  midnight (dayStart) and the seconds elapsed since that midnight (secOfDay),
  so that datetime.now().replace(hour, minute, second=0, microsecond=0)
  becomes dayStart + hour*3600 + minute*60.
* The on-disk configuration file is a snapshot: None when the file is absent,
  otherwise its modification time together with its parsed content (content
  None models a file whose JSON fails to parse).
* Exceptions that a Python method can raise to its caller are modelled with
  Except; methods that swallow all exceptions internally are total functions.
* Python truthiness tests on self.next_run_time (a float or None) are kept:
  the value 0 counts as falsy exactly as in the source.
* threading.Timer objects are modelled by a generation counter: every armed
  timer receives a fresh generation; self.timer holds the generation of the
  currently referenced timer and the pending list holds every armed timer
  that has neither fired nor been cancelled.  The combined_loop thread is
  modelled synchronously: starting it runs its first statement
  (schedule_next_run); loopThreads counts how many loop threads were started.
-/

namespace HealthCheck

/-- The schedule section of the configuration: enabled flag, hour, minute. -/
structure ScheduleConfig where
  enabled : Bool
  hour : ℕ
  minute : ℕ
deriving DecidableEq

/-- A parsed configuration record.  Only the schedule section is relevant to
the controller; schedule is None when the section is missing (the empty dict
returned by config.get is falsy in every use site). -/
structure Config where
  schedule : Option ScheduleConfig
deriving DecidableEq

/-- A wall-clock instant: timestamp of the current day's midnight plus the
seconds elapsed since then. -/
structure WallClock where
  dayStart : ℚ
  secOfDay : ℚ
deriving DecidableEq

/-- The absolute timestamp of a wall-clock instant (time.time). -/
def WallClock.timestamp (w : WallClock) : ℚ :=
  w.dayStart + w.secOfDay

/-- Snapshot of the configuration file when it exists: parsed content
(None when the JSON is malformed) and modification time. -/
structure FileState where
  content : Option Config
  mtime : ℚ
deriving DecidableEq

/-- An armed threading.Timer: its generation and its fire instant. -/
structure TimerInfo where
  gen : ℕ
  fireAt : ℚ
deriving DecidableEq

/-- The mutable attributes of the HealthCheckAutomation singleton that the
scheduling and lifecycle logic reads and writes. -/
structure CoreState where
  running : Bool
  scheduler_running : Bool
  config : Option Config
  schedule_config : Option ScheduleConfig
  config_last_modified : ℚ
  config_check_interval : ℚ
  timer : Option ℕ
  pending : List TimerInfo
  next_run_time : Option ℚ
  loopThreads : ℕ
  timerGen : ℕ
deriving DecidableEq

/-- Errors a configuration access can raise: FileNotFoundError when the file
is absent, a json decode error on malformed content, and the attribute or key
error raised when schedule_config is unavailable. -/
inductive ConfigError
  | missing
  | parseError
  | attrError
deriving DecidableEq

/-- load_or_create_config: raises FileNotFoundError when the file does not
exist (no default is synthesized); on success stores the parsed config and
records the file's modification time into config_last_modified. -/
def load_or_create_config (fs : Option FileState) (s : CoreState) :
    Except ConfigError CoreState :=
  match fs with
  | none => .error .missing
  | some f =>
    match f.content with
    | none => .error .parseError
    | some c => .ok { s with config := some c, config_last_modified := f.mtime }

/-- setup_automation: loads the config when not yet loaded, then caches the
schedule section into schedule_config. -/
def setup_automation (fs : Option FileState) (s : CoreState) :
    Except ConfigError CoreState := do
  let s1 ← match s.config with
    | none => load_or_create_config fs s
    | some _ => .ok s
  match s1.config with
  | some c => .ok { s1 with schedule_config := c.schedule }
  | none => .ok s1

/-- calculate_next_run_time: None when the schedule section is missing or
disabled; otherwise the candidate is today at hour:minute:00.000 and the
result is the candidate, pushed to tomorrow when now has already reached it. -/
def calculate_next_run_time (sc : Option ScheduleConfig) (now : WallClock) :
    Option ℚ :=
  match sc with
  | none => none
  | some c =>
    if c.enabled = false then none
    else
      let candidate := now.dayStart + (c.hour : ℚ) * 3600 + (c.minute : ℚ) * 60
      if candidate ≤ now.timestamp then some (candidate + 86400)
      else some candidate

/-- get_next_run_delay: max(0, next_run_time - now) when a next run time is
set (and truthy, as in the source), otherwise -1. -/
def get_next_run_delay (now : ℚ) (s : CoreState) : ℚ :=
  match s.next_run_time with
  | some t => if t = 0 then -1 else max 0 (t - now)
  | none => -1

/-- The timer-cancel prologue of schedule_next_run and stop_combined_thread:
when self.timer references a timer, cancel it (remove it from the pending
set) and drop the reference. -/
def cancelTimer (s : CoreState) : CoreState :=
  match s.timer with
  | none => s
  | some g =>
    { s with timer := none, pending := s.pending.filter (fun ti => ti.gen ≠ g) }

/-- schedule_next_run: cancel any referenced timer, store the freshly
computed next run time, and when it is truthy arm a one-shot timer firing
after get_next_run_delay seconds. -/
def schedule_next_run (now : WallClock) (s : CoreState) : CoreState :=
  let s0 := cancelTimer s
  let nrt := calculate_next_run_time s0.schedule_config now
  let s1 := { s0 with next_run_time := nrt }
  match nrt with
  | none => s1
  | some t =>
    if t = 0 then s1
    else
      let delay := get_next_run_delay now.timestamp s1
      { s1 with
          timer := some s1.timerGen,
          pending := s1.pending ++ [⟨s1.timerGen, now.timestamp + delay⟩],
          timerGen := s1.timerGen + 1 }

/-- timer_callback: the armed timer of generation g fires (leaving the
pending set), fill_health_form is invoked exactly once (any exception it
raises is caught), and finally, when still running, the next run is
rescheduled.  The second component counts actuator invocations. -/
def timer_callback (g : ℕ) (now : WallClock) (s : CoreState) : CoreState × ℕ :=
  let s0 := { s with pending := s.pending.filter (fun ti => ti.gen ≠ g) }
  let s1 := if s0.running then schedule_next_run now s0 else s0
  (s1, 1)

/-- start_combined_thread: raises when schedule_config is unavailable; when
the schedule is disabled it logs and returns without starting anything;
otherwise it sets running, starts a combined_loop thread (counted in
loopThreads) whose first statement schedule_next_run is run here. -/
def start_combined_thread (now : WallClock) (s : CoreState) :
    Except ConfigError CoreState :=
  match s.schedule_config with
  | none => .error .attrError
  | some sc =>
    if sc.enabled = false then .ok s
    else
      .ok (schedule_next_run now
        { s with running := true, loopThreads := s.loopThreads + 1 })

/-- stop_combined_thread: no-op when not running; otherwise clears running,
cancels the referenced timer (also clearing next_run_time), joins the loop
thread with a bounded 5 second timeout, clears scheduler_running, and deletes
the cached config and schedule_config attributes. -/
def stop_combined_thread (s : CoreState) : CoreState :=
  if s.running then
    let s0 := { s with running := false }
    let s1 :=
      match s0.timer with
      | some g =>
        { s0 with
            timer := none,
            pending := s0.pending.filter (fun ti => ti.gen ≠ g),
            next_run_time := none }
      | none => s0
    { s1 with
        scheduler_running := false,
        config := none,
        schedule_config := none }
  else s

/-- The start sequence a caller performs (load_or_create_config or
setup_automation followed by start_combined_thread, as in the GUI callers of
the core); a configuration error aborts before anything is started. -/
def startController (fs : Option FileState) (now : WallClock) (s : CoreState) :
    Except ConfigError CoreState := do
  let s1 ← setup_automation fs s
  start_combined_thread now s1

/-- The caller's view of startController: on an exception the controller
state is left untouched (the caller catches and keeps the old state). -/
def tryStart (fs : Option FileState) (now : WallClock) (s : CoreState) :
    CoreState :=
  match startController fs now s with
  | .ok s1 => s1
  | .error _ => s

/-- The adaptive sleep computation of one combined_loop iteration, as a
function of the delay returned by get_next_run_delay and of
config_check_interval. -/
def adaptiveSleep (next_run_delay check_interval : ℚ) : ℚ :=
  if 0 < next_run_delay ∧ next_run_delay ≤ 5 then 1 / 2
  else if 0 < next_run_delay then
    min (next_run_delay / 2) (min (check_interval / 2) 30)
  else min check_interval 30

/-- Observable log events of the configuration watch. -/
inductive LogEvent
  | warnMissing
  | reloadStarted
  | reloadFailed
  | reloadApplied
  | rescheduled
deriving DecidableEq

/-- check_config_changes: never raises to its caller.  An absent file is only
a warning; an unchanged modification time does nothing; a newer modification
time records the new timestamp first and then runs the reload body, whose
failure is caught and logged.  On a successful reload the schedule section is
refreshed and, when running with an enabled schedule, the next run is
rescheduled. -/
def check_config_changes (fs : Option FileState) (now : WallClock)
    (s : CoreState) : CoreState × List LogEvent :=
  match fs with
  | none => (s, [.warnMissing])
  | some f =>
    if s.config_last_modified < f.mtime then
      let s1 := { s with config_last_modified := f.mtime }
      match load_or_create_config fs s1 with
      | .error _ => (s1, [.reloadStarted, .reloadFailed])
      | .ok s2 =>
        let s3 :=
          match s2.schedule_config, s2.config with
          | some _, some c => { s2 with schedule_config := c.schedule }
          | _, _ => s2
        match s3.schedule_config with
        | some sc =>
          if s3.running ∧ sc.enabled then
            (schedule_next_run now s3,
              [.reloadStarted, .reloadApplied, .rescheduled])
          else (s3, [.reloadStarted, .reloadApplied])
        | none => (s3, [.reloadStarted, .reloadApplied])
    else (s, [])

/-- Definition following the specification's words for ConfigStore.reload:
update the watch timestamp first, then perform the load, propagating the
load failure to the caller.  Stated only to be compared with the source's
check_config_changes, which catches the failure instead of propagating it. -/
def reloadSpec (fs : Option FileState) (s : CoreState) :
    Except ConfigError CoreState :=
  match fs with
  | none => load_or_create_config fs s
  | some f => load_or_create_config fs { s with config_last_modified := f.mtime }

/-- Result of one iteration of the combined_loop while body: the state after
the iteration, the seconds slept, the number of actuator invocations the
iteration itself performs, and the updated last_config_check. -/
structure IterResult where
  state : CoreState
  sleepSeconds : ℚ
  actuatorCalls : ℕ
  last_config_check : ℚ
deriving DecidableEq

/-- One iteration of the combined_loop while body, taken at wall-clock
instant now: compute the delay, sleep adaptively, and when the config check
interval has elapsed poll check_config_changes.  The iteration never invokes
the actuator itself. -/
def combined_loop_iteration (fs : Option FileState) (now : WallClock)
    (last_config_check : ℚ) (s : CoreState) : IterResult :=
  let delay := get_next_run_delay now.timestamp s
  let sleep := adaptiveSleep delay s.config_check_interval
  if s.config_check_interval ≤ now.timestamp - last_config_check then
    ⟨(check_config_changes fs now s).1, sleep, 0, now.timestamp⟩
  else ⟨s, sleep, 0, last_config_check⟩

/-- Outcome of wait_and_click_with_retry: whether the click succeeded, how
many attempts were made, and whether the final error was logged. -/
structure RetryResult where
  success : Bool
  attemptsMade : ℕ
  loggedFinalError : Bool
deriving DecidableEq

/-- The retry loop of wait_and_click_with_retry: outcome i tells whether
attempt i succeeds (an exception is modelled by false); fuel counts the
remaining iterations of the range. -/
def retryLoop (outcome : ℕ → Bool) : ℕ → ℕ → RetryResult
  | attempt, 0 => ⟨false, attempt, false⟩
  | attempt, fuel + 1 =>
    if outcome attempt then ⟨true, attempt + 1, false⟩
    else if fuel = 0 then ⟨false, attempt + 1, true⟩
    else retryLoop outcome (attempt + 1) fuel

/-- wait_and_click_with_retry: attempts the wait-and-click step for
attempt = 0, 1, ... up to max_retries times (default 2); a non-final failure
retries, the final failure is logged and False is returned instead of
raising. -/
def wait_and_click_with_retry (outcome : ℕ → Bool) (max_retries : ℕ) :
    RetryResult :=
  retryLoop outcome 0 max_retries

/-! ## Helper lemmas -/

/-- Every next run time the calculator returns is strictly positive when the
clock is non-negative (timestamps since the epoch are non-negative), so the
truthiness tests on next_run_time in the source coincide with None tests on
every reachable state. -/
theorem calculate_next_run_time_pos (sc : Option ScheduleConfig)
    (w : WallClock) (t : ℚ) (hd : 0 ≤ w.dayStart) (hs : 0 ≤ w.secOfDay)
    (hcalc : calculate_next_run_time sc w = some t) : 0 < t := by
  match sc with
  | none => simp [calculate_next_run_time] at hcalc
  | some c =>
    obtain ⟨en, chr, cmn⟩ := c
    have hnn : (0 : ℚ) ≤ (chr : ℚ) * 3600 + (cmn : ℚ) * 60 := by positivity
    cases en with
    | false => simp [calculate_next_run_time] at hcalc
    | true =>
      simp only [calculate_next_run_time] at hcalc
      rw [if_neg (by simp)] at hcalc
      split_ifs at hcalc with hc
      · rw [Option.some.injEq] at hcalc
        linarith
      · rw [Option.some.injEq] at hcalc
        have hts : (0 : ℚ) ≤ w.timestamp := by
          simp only [WallClock.timestamp]; linarith
        push_neg at hc
        linarith

/-- The next run time stored by schedule_next_run is exactly the calculator's
result for the current schedule section. -/
theorem schedule_next_run_stores (w : WallClock) (s : CoreState) :
    (schedule_next_run w s).next_run_time =
      calculate_next_run_time s.schedule_config w := by
  have hsc : (cancelTimer s).schedule_config = s.schedule_config := by
    cases h : s.timer <;> simp [cancelTimer, h]
  simp only [schedule_next_run]
  rw [hsc]
  cases hcalc : calculate_next_run_time s.schedule_config w with
  | none => rfl
  | some t =>
    by_cases ht : t = 0
    · simp [ht]
    · simp [ht]

/-! ## C1 -/

/-- C1: for every hour in [0,23], minute in [0,59] and fixed now, with the
schedule enabled, calculate_next_run_time returns an instant strictly greater
than now; it equals today at hour:minute when that candidate is still
strictly in the future, and otherwise equals the candidate plus 24 hours. -/
theorem next_run_strictly_future (hr mn : ℕ) (now : WallClock)
    (hh : hr ≤ 23) (hm : mn ≤ 59)
    (h0 : 0 ≤ now.secOfDay) (h1 : now.secOfDay < 86400) :
    ∃ t, calculate_next_run_time (some ⟨true, hr, mn⟩) now = some t ∧
      now.timestamp < t ∧
      (now.timestamp < now.dayStart + (hr : ℚ) * 3600 + (mn : ℚ) * 60 →
        t = now.dayStart + (hr : ℚ) * 3600 + (mn : ℚ) * 60) ∧
      (now.dayStart + (hr : ℚ) * 3600 + (mn : ℚ) * 60 ≤ now.timestamp →
        t = now.dayStart + (hr : ℚ) * 3600 + (mn : ℚ) * 60 + 86400) := by
  have hnn : (0 : ℚ) ≤ (hr : ℚ) * 3600 + (mn : ℚ) * 60 := by positivity
  by_cases hc :
      now.dayStart + (hr : ℚ) * 3600 + (mn : ℚ) * 60 ≤ now.timestamp
  · refine ⟨now.dayStart + (hr : ℚ) * 3600 + (mn : ℚ) * 60 + 86400, ?_, ?_, ?_,
      fun _ => rfl⟩
    · simp [calculate_next_run_time, hc]
    · simp only [WallClock.timestamp] at hc ⊢
      linarith
    · intro h
      exact absurd hc (not_le.mpr h)
  · refine ⟨now.dayStart + (hr : ℚ) * 3600 + (mn : ℚ) * 60, ?_, ?_,
      fun _ => rfl, fun h => absurd h hc⟩
    · simp [calculate_next_run_time, hc]
    · push_neg at hc
      exact hc

/-- Witness for C1 at the end-to-end scenario A input: now is 11:00:00
(39600 seconds into the day starting at timestamp 0) with target 10:30, so
the next run is tomorrow at 10:30, timestamp 124200. -/
theorem next_run_strictly_future_witness :
    calculate_next_run_time (some ⟨true, 10, 30⟩) ⟨0, 39600⟩ = some 124200 := by
  obtain ⟨t, ht, _, _, h4⟩ :=
    next_run_strictly_future 10 30 ⟨0, 39600⟩ (by norm_num) (by norm_num)
      (by norm_num) (by norm_num)
  have h5 := h4 (by norm_num [WallClock.timestamp])
  rw [ht, h5]
  norm_num

/-! ## C10 -/

/-- C10: the delay accessor is clamped: whenever a (truthy, hence on every
reachable state: any) next run time t is set it returns max(0, t - now),
never a negative value; it returns -1 exactly when no next run time is set;
a scheduled instant that has already passed yields delay 0; and every value
the scheduling code can store is positive, so the truthiness side condition
is satisfied on reachable states. -/
theorem get_next_run_delay_clamped (now : ℚ) (s : CoreState) :
    (∀ t, s.next_run_time = some t → 0 < t →
      get_next_run_delay now s = max 0 (t - now) ∧
        0 ≤ get_next_run_delay now s) ∧
    (s.next_run_time = none → get_next_run_delay now s = -1) ∧
    ((∀ t, s.next_run_time = some t → 0 < t) →
      (get_next_run_delay now s = -1 ↔ s.next_run_time = none)) ∧
    (∀ t, s.next_run_time = some t → 0 < t → t ≤ now →
      get_next_run_delay now s = 0) ∧
    (∀ (w : WallClock) (s' : CoreState),
      (schedule_next_run w s').next_run_time =
        calculate_next_run_time s'.schedule_config w) := by
  refine ⟨?_, ?_, ?_, ?_, fun w s' => schedule_next_run_stores w s'⟩
  · intro t ht hpos
    have hne : t ≠ 0 := ne_of_gt hpos
    constructor
    · simp [get_next_run_delay, ht, hne]
    · simp [get_next_run_delay, ht, hne]
  · intro h
    simp [get_next_run_delay, h]
  · intro hall
    constructor
    · intro hneg
      match hnr : s.next_run_time with
      | none => rfl
      | some t =>
        have hpos := hall t hnr
        have hne : t ≠ 0 := ne_of_gt hpos
        rw [get_next_run_delay, hnr] at hneg
        simp only [hne, if_false] at hneg
        have : (0 : ℚ) ≤ max 0 (t - now) := le_max_left 0 (t - now)
        rw [hneg] at this
        linarith
    · intro h
      simp [get_next_run_delay, h]
  · intro t ht hpos hpast
    have hne : t ≠ 0 := ne_of_gt hpos
    simp only [get_next_run_delay, ht, hne, if_false]
    exact max_eq_left (by linarith)

/-- Witness for C10: with next run time 100 and now 150 the delay is 0, and
with no next run time it is -1. -/
theorem get_next_run_delay_clamped_witness :
    get_next_run_delay 150
        ⟨false, false, none, none, 0, 30, none, [], some 100, 0, 0⟩ = 0 ∧
      get_next_run_delay 150
        ⟨false, false, none, none, 0, 30, none, [], none, 0, 0⟩ = -1 := by
  constructor
  · exact (get_next_run_delay_clamped 150
      ⟨false, false, none, none, 0, 30, none, [], some 100, 0, 0⟩).2.2.2.1 100
      rfl (by norm_num) (by norm_num)
  · exact (get_next_run_delay_clamped 150
      ⟨false, false, none, none, 0, 30, none, [], none, 0, 0⟩).2.1 rfl

/-! ## C4 -/

/-- A controller state at the fire instant: the next run time 100 has just
been reached, so get_next_run_delay clamps the delay to 0. -/
def delayZeroState : CoreState :=
  ⟨true, false, none, none, 0, 30, some 0, [⟨0, 100⟩], some 100, 1, 1⟩

/-- The wall-clock instant with timestamp 100, the stored next run time. -/
def delayZeroClock : WallClock := ⟨0, 100⟩

/-- Counterexample to C4: at delay exactly 0 (a scheduled instant that has
just been reached) the claim prescribes a 0.5 second sleep, but the loop
takes the branch for no pending task and sleeps min(checkInterval, 30) = 30
seconds, because the tight-poll branch requires a strictly positive delay. -/
theorem adaptive_sleep_claim_false :
    get_next_run_delay delayZeroClock.timestamp delayZeroState = 0 ∧
      (combined_loop_iteration none delayZeroClock delayZeroClock.timestamp
        delayZeroState).sleepSeconds = 30 ∧
      (30 : ℚ) ≠ 1 / 2 := by
  refine ⟨?_, ?_, by norm_num⟩
  · norm_num [get_next_run_delay, delayZeroState, delayZeroClock,
      WallClock.timestamp]
  · norm_num [combined_loop_iteration, adaptiveSleep, get_next_run_delay,
      delayZeroState, delayZeroClock, WallClock.timestamp]

/-- C4 amended: each loop iteration sleeps adaptively as a function of the
computed delay, where the tight 0.5 second poll applies for 0 < delay ≤ 5;
a delay > 5 sleeps min(delay/2, checkInterval/2, 30); and a delay ≤ 0
(delay 0 for an already-reached instant, delay -1 for nothing scheduled)
sleeps min(checkInterval, 30). -/
theorem adaptive_sleep_rule (fs : Option FileState) (now : WallClock)
    (lcc : ℚ) (s : CoreState) :
    (combined_loop_iteration fs now lcc s).sleepSeconds =
      adaptiveSleep (get_next_run_delay now.timestamp s)
        s.config_check_interval ∧
    (∀ d ci : ℚ,
      (0 < d → d ≤ 5 → adaptiveSleep d ci = 1 / 2) ∧
      (5 < d → adaptiveSleep d ci = min (d / 2) (min (ci / 2) 30)) ∧
      (d ≤ 0 → adaptiveSleep d ci = min ci 30)) := by
  constructor
  · simp only [combined_loop_iteration]
    split <;> rfl
  · intro d ci
    refine ⟨fun h1 h2 => ?_, fun h5 => ?_, fun h0 => ?_⟩
    · unfold adaptiveSleep
      rw [if_pos ⟨h1, h2⟩]
    · unfold adaptiveSleep
      rw [if_neg (by rintro ⟨-, hb⟩; linarith), if_pos (by linarith)]
    · unfold adaptiveSleep
      rw [if_neg (by rintro ⟨ha, -⟩; linarith), if_neg (by linarith)]

/-- Witness for C4 amended: a 3 second delay sleeps 0.5 seconds and a
0 second delay sleeps 30 seconds with the default 30 second check interval. -/
theorem adaptive_sleep_rule_witness :
    adaptiveSleep 3 30 = 1 / 2 ∧ adaptiveSleep 0 30 = 30 := by
  have h := (adaptive_sleep_rule none delayZeroClock 0 delayZeroState).2
  constructor
  · exact (h 3 30).1 (by norm_num) (by norm_num)
  · rw [(h 0 30).2.2 (by norm_num)]
    norm_num

/-! ## C9 -/

/-- The retry loop makes at most fuel further attempts. -/
theorem retryLoop_attempts (outcome : ℕ → Bool) :
    ∀ fuel attempt,
      (retryLoop outcome attempt fuel).attemptsMade ≤ attempt + fuel := by
  intro fuel
  induction fuel with
  | zero => intro a; simp [retryLoop]
  | succ n ih =>
    intro a
    unfold retryLoop
    split_ifs with h1 h2
    · show a + 1 ≤ a + (n + 1)
      omega
    · show a + 1 ≤ a + (n + 1)
      omega
    · have hrec := ih (a + 1)
      omega

/-- When every attempt in range fails, the retry loop performs them all,
logs the final error and returns failure. -/
theorem retryLoop_all_fail (outcome : ℕ → Bool) :
    ∀ fuel attempt, 0 < fuel →
      (∀ i, attempt ≤ i → i < attempt + fuel → outcome i = false) →
      retryLoop outcome attempt fuel = ⟨false, attempt + fuel, true⟩ := by
  intro fuel
  induction fuel with
  | zero => intro a h; omega
  | succ n ih =>
    intro a _ hall
    have h0 : outcome a = false := hall a le_rfl (by omega)
    unfold retryLoop
    rw [h0, if_neg (by simp)]
    by_cases hn : n = 0
    · subst hn
      rw [if_pos rfl]
    · have hrec := ih (a + 1) (Nat.pos_of_ne_zero hn)
        (fun i h1 h2 => hall i (by omega) (by omega))
      rw [if_neg hn, hrec]
      have hsum : a + 1 + n = a + (n + 1) := by omega
      rw [hsum]

/-- C9: wait_and_click_with_retry attempts the wrapped step at most
max_retries times (default 2), and when every attempt fails it performs all
max_retries attempts, logs the final error and returns failure instead of
raising (the embedding is a total function into RetryResult). -/
theorem wait_and_click_retry_bound (outcome : ℕ → Bool) (max_retries : ℕ) :
    (wait_and_click_with_retry outcome max_retries).attemptsMade ≤
      max_retries ∧
    (0 < max_retries → (∀ i, i < max_retries → outcome i = false) →
      wait_and_click_with_retry outcome max_retries =
        ⟨false, max_retries, true⟩) := by
  constructor
  · have h := retryLoop_attempts outcome max_retries 0
    simpa [wait_and_click_with_retry] using h
  · intro hpos hall
    have h := retryLoop_all_fail outcome max_retries 0 hpos
      (fun i _ h2 => hall i (by omega))
    simpa [wait_and_click_with_retry] using h

/-- Witness for C9 at the default max_retries = 2 with both attempts
failing: exactly 2 attempts, final error logged, failure returned. -/
theorem wait_and_click_retry_bound_witness :
    wait_and_click_with_retry (fun _ => false) 2 = ⟨false, 2, true⟩ ∧
      (wait_and_click_with_retry (fun _ => false) 2).attemptsMade ≤ 2 :=
  ⟨(wait_and_click_retry_bound (fun _ => false) 2).2 (by norm_num)
      (fun _ _ => rfl),
    (wait_and_click_retry_bound (fun _ => false) 2).1⟩

/-! ## Concrete fixtures -/

/-- A freshly constructed controller: nothing loaded, nothing running. -/
def freshState : CoreState := ⟨false, false, none, none, 0, 30, none, [], none, 0, 0⟩

/-- The wall-clock instant at timestamp 0. -/
def epochClock : WallClock := ⟨0, 0⟩

/-- An existing, well-formed configuration file with an enabled 10:30
schedule, modification time 42. -/
def goodFile : FileState := ⟨some ⟨some ⟨true, 10, 30⟩⟩, 42⟩

/-- A controller whose recorded watch timestamp matches goodFile. -/
def watchedState : CoreState := ⟨false, false, none, none, 42, 30, none, [], none, 0, 0⟩

/-- An existing configuration file with malformed content, modification
time 10. -/
def badFile : FileState := ⟨none, 10⟩

/-! ## C5 -/

/-- C5: when the configuration file does not exist, load_or_create_config
fails with the hard missing-file error and no default is synthesized; the
error propagates through the start sequence, so the loop is never started
and the controller still reports not running.  When the file exists and
parses, the load succeeds and records the file's modification timestamp
into the watch state. -/
theorem config_missing_aborts_start (fs : Option FileState) (now : WallClock)
    (s : CoreState) (hcfg : s.config = none) (hrun : s.running = false) :
    (fs = none →
      load_or_create_config fs s = .error .missing ∧
      startController fs now s = .error .missing ∧
      (tryStart fs now s).running = false) ∧
    (∀ f c, fs = some f → f.content = some c →
      load_or_create_config fs s =
        .ok { s with config := some c, config_last_modified := f.mtime }) := by
  constructor
  · intro hfs
    subst hfs
    refine ⟨rfl, ?_, ?_⟩
    · simp only [startController, setup_automation, hcfg]
      rfl
    · simp only [tryStart, startController, setup_automation, hcfg]
      exact hrun
  · intro f c hfs hc
    subst hfs
    simp [load_or_create_config, hc]

/-- Witness for C5: a fresh controller with no file aborts the start with
the missing-config error, and with an existing parsed file the load records
modification time 42. -/
theorem config_missing_aborts_start_witness :
    startController none epochClock freshState = .error .missing ∧
      load_or_create_config (some goodFile) freshState =
        .ok { freshState with
                config := some ⟨some ⟨true, 10, 30⟩⟩,
                config_last_modified := 42 } := by
  constructor
  · exact ((config_missing_aborts_start none epochClock freshState rfl
      rfl).1 rfl).2.1
  · exact (config_missing_aborts_start (some goodFile) epochClock freshState
      rfl rfl).2 goodFile ⟨some ⟨true, 10, 30⟩⟩ rfl rfl

/-! ## C7 -/

/-- C7: the change check never raises (it is a total function): an absent
file reports only a warning and changes nothing; an unchanged modification
time reports no change and leaves the state fixed under arbitrarily many
polls; and a reload is started only when the modification time has
changed (become newer). -/
theorem check_config_changes_safe (fs : Option FileState) (now : WallClock)
    (s : CoreState) :
    (fs = none →
      check_config_changes fs now s = (s, [LogEvent.warnMissing])) ∧
    (∀ f, fs = some f → f.mtime = s.config_last_modified →
      check_config_changes fs now s = (s, []) ∧
      ∀ n, (fun st => (check_config_changes fs now st).1)^[n] s = s) ∧
    (∀ s' ev, check_config_changes fs now s = (s', ev) →
      LogEvent.reloadStarted ∈ ev →
      ∃ f, fs = some f ∧ s.config_last_modified < f.mtime) := by
  refine ⟨?_, ?_, ?_⟩
  · intro h
    subst h
    rfl
  · intro f hfs heq
    subst hfs
    have hnot : ¬ s.config_last_modified < f.mtime := by
      rw [heq]
      exact lt_irrefl _
    have hstep : check_config_changes (some f) now s = (s, []) := by
      simp [check_config_changes, hnot]
    refine ⟨hstep, ?_⟩
    intro n
    induction n with
    | zero => rfl
    | succ k ihk =>
      rw [Function.iterate_succ_apply]
      simp only [hstep]
      exact ihk
  · intro s' ev hck hmem
    cases fs with
    | none =>
      rw [show check_config_changes none now s = (s, [LogEvent.warnMissing])
        from rfl] at hck
      cases hck
      simp at hmem
    | some f =>
      by_cases hlt : s.config_last_modified < f.mtime
      · exact ⟨f, rfl, hlt⟩
      · rw [show check_config_changes (some f) now s = (s, []) from by
          simp [check_config_changes, hlt]] at hck
        cases hck
        simp at hmem

/-- Witness for C7: an absent file only warns, and a file whose
modification time equals the watch timestamp triggers nothing. -/
theorem check_config_changes_safe_witness :
    check_config_changes none epochClock freshState =
        (freshState, [LogEvent.warnMissing]) ∧
      check_config_changes (some goodFile) epochClock watchedState =
        (watchedState, []) :=
  ⟨(check_config_changes_safe none epochClock freshState).1 rfl,
    ((check_config_changes_safe (some goodFile) epochClock
        watchedState).2.1 goodFile rfl rfl).1⟩

/-! ## C6 -/

/-- Counterexample to C6: when the file has changed but its content is
malformed, the specification-style reload propagates the parse failure to
its caller, while the source's change check returns normally, merely logging
the failure: the reload body's failure is not propagated. -/
theorem reload_failure_not_propagated :
    reloadSpec (some badFile) freshState = .error .parseError ∧
      check_config_changes (some badFile) epochClock freshState =
        ({ freshState with config_last_modified := 10 },
          [LogEvent.reloadStarted, LogEvent.reloadFailed]) := by
  constructor
  · rfl
  · norm_num [check_config_changes, load_or_create_config, badFile,
      freshState]

/-- C6 amended: a reload triggered by a detected change records the new
modification timestamp strictly before running the reload body, so that
after a mid-reload failure the next poll against the same unmodified file
does not re-trigger a reload; the failure is caught and logged inside the
change check (not propagated to the loop), while the specification-style
reload would propagate it. -/
theorem reload_debounce (fs : Option FileState) (f : FileState)
    (now now' : WallClock) (s : CoreState)
    (hfs : fs = some f) (hch : s.config_last_modified < f.mtime)
    (hbad : f.content = none) :
    check_config_changes fs now s =
      ({ s with config_last_modified := f.mtime },
        [LogEvent.reloadStarted, LogEvent.reloadFailed]) ∧
    check_config_changes fs now' { s with config_last_modified := f.mtime } =
      ({ s with config_last_modified := f.mtime }, []) ∧
    reloadSpec fs s = .error .parseError := by
  subst hfs
  refine ⟨?_, ?_, ?_⟩
  · simp [check_config_changes, hch, load_or_create_config, hbad]
  · simp [check_config_changes]
  · simp [reloadSpec, load_or_create_config, hbad]

/-- Witness for C6 amended at the malformed changed file: the timestamp is
recorded, the failure stays internal, and a second poll is silent. -/
theorem reload_debounce_witness :
    check_config_changes (some badFile) epochClock freshState =
      ({ freshState with config_last_modified := 10 },
        [LogEvent.reloadStarted, LogEvent.reloadFailed]) ∧
    check_config_changes (some badFile) epochClock
        { freshState with config_last_modified := 10 } =
      ({ freshState with config_last_modified := 10 }, []) := by
  have h := reload_debounce (some badFile) badFile epochClock epochClock
    freshState rfl (by norm_num [freshState, badFile]) rfl
  exact ⟨h.1, h.2.1⟩

/-! ## Helper lemmas on timers and loop start -/

/-- Filtering away the one generation every pending timer carries empties
the pending list. -/
theorem pending_filter_nil (l : List TimerInfo) (g : ℕ)
    (h : ∀ ti ∈ l, ti.gen = g) :
    l.filter (fun ti => ti.gen ≠ g) = [] := by
  rw [List.filter_eq_nil]
  intro ti hti
  simp [h ti hti]

/-- cancelTimer only touches the timer reference and the pending list. -/
@[simp] theorem cancelTimer_running (s : CoreState) :
    (cancelTimer s).running = s.running := by
  cases h : s.timer <;> simp [cancelTimer, h]

@[simp] theorem cancelTimer_schedule_config (s : CoreState) :
    (cancelTimer s).schedule_config = s.schedule_config := by
  cases h : s.timer <;> simp [cancelTimer, h]

@[simp] theorem cancelTimer_loopThreads (s : CoreState) :
    (cancelTimer s).loopThreads = s.loopThreads := by
  cases h : s.timer <;> simp [cancelTimer, h]

@[simp] theorem cancelTimer_timerGen (s : CoreState) :
    (cancelTimer s).timerGen = s.timerGen := by
  cases h : s.timer <;> simp [cancelTimer, h]

@[simp] theorem cancelTimer_config (s : CoreState) :
    (cancelTimer s).config = s.config := by
  cases h : s.timer <;> simp [cancelTimer, h]

@[simp] theorem cancelTimer_config_last_modified (s : CoreState) :
    (cancelTimer s).config_last_modified = s.config_last_modified := by
  cases h : s.timer <;> simp [cancelTimer, h]

/-- When every pending timer is the referenced one, cancelling the
referenced timer leaves no pending timer. -/
theorem cancelTimer_pending_nil (s : CoreState)
    (hinv : ∀ ti ∈ s.pending, s.timer = some ti.gen) :
    (cancelTimer s).pending = [] := by
  cases h : s.timer with
  | none =>
    cases hp : s.pending with
    | nil => simp [cancelTimer, h, hp]
    | cons a l =>
      have ha := hinv a (by rw [hp]; exact List.mem_cons_self a l)
      rw [h] at ha
      exact absurd ha (by simp)
  | some g =>
    simp only [cancelTimer, h]
    apply pending_filter_nil
    intro ti hti
    have := hinv ti hti
    rw [h] at this
    injection this with h2
    exact h2.symm

/-- An enabled schedule always yields a next run time. -/
theorem calculate_next_run_time_enabled (sc : ScheduleConfig) (w : WallClock)
    (hen : sc.enabled = true) :
    ∃ t, calculate_next_run_time (some sc) w = some t := by
  simp only [calculate_next_run_time, hen]
  rw [if_neg (by simp)]
  by_cases hc :
      w.dayStart + (sc.hour : ℚ) * 3600 + (sc.minute : ℚ) * 60 ≤ w.timestamp
  · exact ⟨_, by rw [if_pos hc]⟩
  · exact ⟨_, by rw [if_neg hc]⟩

/-- The full shape of schedule_next_run when the calculator yields a
positive next run time and the pending invariant holds: the previous timer
is cancelled and exactly the one fresh timer is armed. -/
theorem schedule_next_run_armed (w : WallClock) (s : CoreState) (t : ℚ)
    (hcalc : calculate_next_run_time s.schedule_config w = some t)
    (hpos : 0 < t)
    (hinv : ∀ ti ∈ s.pending, s.timer = some ti.gen) :
    schedule_next_run w s =
      { cancelTimer s with
          next_run_time := some t,
          timer := some s.timerGen,
          pending := [⟨s.timerGen, w.timestamp + max 0 (t - w.timestamp)⟩],
          timerGen := s.timerGen + 1 } := by
  have hnil := cancelTimer_pending_nil s hinv
  have hne : t ≠ 0 := ne_of_gt hpos
  simp only [schedule_next_run, cancelTimer_schedule_config, hcalc]
  rw [if_neg hne]
  simp [get_next_run_delay, hne, hnil]

/-- The full shape of start_combined_thread with an enabled schedule: the
loop is started (one more loop thread) and its first statement arms exactly
one fresh timer for the computed next run time. -/
theorem start_combined_thread_shape (now : WallClock) (s : CoreState)
    (sc : ScheduleConfig) (hsc : s.schedule_config = some sc)
    (hen : sc.enabled = true) (t : ℚ)
    (hcalc : calculate_next_run_time (some sc) now = some t) (hpos : 0 < t)
    (hinv : ∀ ti ∈ s.pending, s.timer = some ti.gen) :
    start_combined_thread now s =
      .ok { cancelTimer s with
              running := true,
              loopThreads := s.loopThreads + 1,
              next_run_time := some t,
              timer := some s.timerGen,
              pending := [⟨s.timerGen,
                now.timestamp + max 0 (t - now.timestamp)⟩],
              timerGen := s.timerGen + 1 } := by
  simp only [start_combined_thread, hsc, hen]
  rw [if_neg (by simp)]
  rw [schedule_next_run_armed now
    { s with running := true, loopThreads := s.loopThreads + 1,
             schedule_config := some sc } t
    hcalc hpos (fun ti hti => hinv ti hti)]
  cases h : s.timer <;> simp [cancelTimer, h, hsc]

/-- A loop iteration never invokes the actuator itself. -/
theorem combined_loop_iteration_actuatorCalls (fs : Option FileState)
    (now : WallClock) (lcc : ℚ) (s : CoreState) :
    (combined_loop_iteration fs now lcc s).actuatorCalls = 0 := by
  simp only [combined_loop_iteration]
  split <;> rfl

/-- A loop iteration before the config-check interval has elapsed only
sleeps. -/
theorem combined_loop_iteration_no_check (fs : Option FileState)
    (now : WallClock) (lcc : ℚ) (s : CoreState)
    (hlt : now.timestamp - lcc < s.config_check_interval) :
    combined_loop_iteration fs now lcc s =
      ⟨s, adaptiveSleep (get_next_run_delay now.timestamp s)
          s.config_check_interval, 0, lcc⟩ := by
  simp only [combined_loop_iteration]
  rw [if_neg (not_le.mpr hlt)]

/-! ## C2 -/

/-- A running controller whose stored next run instant (timestamp 100) has
already passed, with the corresponding timer of generation 0 armed. -/
def firingDueState : CoreState :=
  ⟨true, false, none, some ⟨true, 10, 30⟩, 0, 30, some 0, [⟨0, 100⟩],
    some 100, 1, 1⟩

/-- A wall-clock instant (timestamp 150) past the stored run instant 100. -/
def pastFireClock : WallClock := ⟨0, 150⟩

/-- Counterexample to C2: with the current time at or past the stored next
run instant, the loop iteration itself invokes the actuator zero times (not
exactly once) and leaves the stored next run instant unchanged: the firing
is not done by the loop. -/
theorem loop_does_not_fire :
    firingDueState.next_run_time = some 100 ∧
      (100 : ℚ) ≤ pastFireClock.timestamp ∧
      (combined_loop_iteration none pastFireClock pastFireClock.timestamp
        firingDueState).actuatorCalls = 0 ∧
      (combined_loop_iteration none pastFireClock pastFireClock.timestamp
        firingDueState).state = firingDueState := by
  refine ⟨rfl, by norm_num [pastFireClock, WallClock.timestamp], ?_, ?_⟩
  · exact combined_loop_iteration_actuatorCalls none pastFireClock
      pastFireClock.timestamp firingDueState
  · rw [combined_loop_iteration_no_check none pastFireClock
      pastFireClock.timestamp firingDueState
      (by norm_num [pastFireClock, firingDueState, WallClock.timestamp])]

/-- C2 amended: the scheduled fire is performed by the armed one-shot timer:
its callback invokes the actuator exactly once and — when the controller is
still running — immediately recomputes and stores the next run instant
(self-rescheduling); the monitor loop iteration itself never invokes the
actuator. -/
theorem timer_callback_fires_once (g : ℕ) (now : WallClock) (s : CoreState) :
    (timer_callback g now s).2 = 1 ∧
    (s.running = true →
      (timer_callback g now s).1.next_run_time =
        calculate_next_run_time s.schedule_config now) ∧
    (∀ fs lcc, (combined_loop_iteration fs now lcc s).actuatorCalls = 0) := by
  refine ⟨rfl, ?_, ?_⟩
  · intro hrun
    simp only [timer_callback, hrun, eq_self_iff_true, if_true]
    rw [schedule_next_run_stores]
  · intro fs lcc
    exact combined_loop_iteration_actuatorCalls fs now lcc s

/-- Witness for C2 amended at the due state: the callback fires once and
stores the recomputed instant. -/
theorem timer_callback_fires_once_witness :
    (timer_callback 0 pastFireClock firingDueState).2 = 1 ∧
      (timer_callback 0 pastFireClock firingDueState).1.next_run_time =
        calculate_next_run_time firingDueState.schedule_config pastFireClock :=
  ⟨(timer_callback_fires_once 0 pastFireClock firingDueState).1,
    (timer_callback_fires_once 0 pastFireClock firingDueState).2.1 rfl⟩

/-! ## C3 -/

/-- An idle controller with a loaded, enabled 10:30 schedule. -/
def enabledIdleState : CoreState :=
  ⟨false, false, some ⟨some ⟨true, 10, 30⟩⟩, some ⟨true, 10, 30⟩, 42, 30,
    none, [], none, 0, 0⟩

/-- The controller after one start at the epoch clock: one loop thread, one
armed timer of generation 0 for 10:30 today (timestamp 37800). -/
def startedOnce : CoreState :=
  ⟨true, false, some ⟨some ⟨true, 10, 30⟩⟩, some ⟨true, 10, 30⟩, 42, 30,
    some 0, [⟨0, 37800⟩], some 37800, 1, 1⟩

/-- The controller after a second start call: a second loop thread was
spawned, the generation 0 timer was cancelled and generation 1 armed. -/
def startedTwice : CoreState :=
  ⟨true, false, some ⟨some ⟨true, 10, 30⟩⟩, some ⟨true, 10, 30⟩, 42, 30,
    some 1, [⟨1, 37800⟩], some 37800, 2, 2⟩

/-- Counterexample to C3: start_combined_thread performs no already-running
check, so a second call is not a no-op: it changes the state and leaves two
monitor loop threads running instead of exactly one. -/
theorem start_not_idempotent :
    start_combined_thread epochClock enabledIdleState = .ok startedOnce ∧
      start_combined_thread epochClock startedOnce = .ok startedTwice ∧
      startedTwice ≠ startedOnce ∧
      startedOnce.loopThreads = 1 ∧ startedTwice.loopThreads = 2 := by
  refine ⟨?_, ?_, by decide, rfl, rfl⟩
  · norm_num [start_combined_thread, schedule_next_run, cancelTimer,
      calculate_next_run_time, get_next_run_delay, enabledIdleState,
      startedOnce, epochClock, WallClock.timestamp, max_def]
  · norm_num [start_combined_thread, schedule_next_run, cancelTimer,
      calculate_next_run_time, get_next_run_delay, startedOnce,
      startedTwice, epochClock, WallClock.timestamp, max_def]

/-- C3 corrected: a second start call spawns an additional monitor loop
thread (the call is not a no-op and two loops run), but because each loop's
initial scheduling cancels the previously armed timer before arming a fresh
one, exactly one timer remains armed: exactly one scheduled fire at the
target instant. -/
theorem start_twice_two_loops (now now' : WallClock) (s : CoreState)
    (sc : ScheduleConfig) (hsc : s.schedule_config = some sc)
    (hen : sc.enabled = true)
    (hinv : ∀ ti ∈ s.pending, s.timer = some ti.gen)
    (hd : 0 ≤ now.dayStart) (hs0 : 0 ≤ now.secOfDay)
    (hd' : 0 ≤ now'.dayStart) (hs' : 0 ≤ now'.secOfDay) :
    ∃ s1 s2, start_combined_thread now s = .ok s1 ∧
      start_combined_thread now' s1 = .ok s2 ∧
      s1.loopThreads = s.loopThreads + 1 ∧
      s2.loopThreads = s.loopThreads + 2 ∧
      s2.running = true ∧
      s1.pending.length = 1 ∧ s2.pending.length = 1 := by
  obtain ⟨t, hcalc⟩ := calculate_next_run_time_enabled sc now hen
  have hpos := calculate_next_run_time_pos (some sc) now t hd hs0 hcalc
  have h1 := start_combined_thread_shape now s sc hsc hen t hcalc hpos hinv
  obtain ⟨t', hcalc'⟩ := calculate_next_run_time_enabled sc now' hen
  have hpos' := calculate_next_run_time_pos (some sc) now' t' hd' hs' hcalc'
  have hsc1 : ({ cancelTimer s with
      running := true,
      loopThreads := s.loopThreads + 1,
      next_run_time := some t,
      timer := some s.timerGen,
      pending := [⟨s.timerGen, now.timestamp + max 0 (t - now.timestamp)⟩],
      timerGen := s.timerGen + 1 } : CoreState).schedule_config = some sc := by
    rw [show ({ cancelTimer s with
        running := true,
        loopThreads := s.loopThreads + 1,
        next_run_time := some t,
        timer := some s.timerGen,
        pending := [⟨s.timerGen, now.timestamp + max 0 (t - now.timestamp)⟩],
        timerGen := s.timerGen + 1 } : CoreState).schedule_config =
      (cancelTimer s).schedule_config from rfl]
    rw [cancelTimer_schedule_config]
    exact hsc
  have hinv1 : ∀ ti ∈ ({ cancelTimer s with
      running := true,
      loopThreads := s.loopThreads + 1,
      next_run_time := some t,
      timer := some s.timerGen,
      pending := [⟨s.timerGen, now.timestamp + max 0 (t - now.timestamp)⟩],
      timerGen := s.timerGen + 1 } : CoreState).pending,
      ({ cancelTimer s with
      running := true,
      loopThreads := s.loopThreads + 1,
      next_run_time := some t,
      timer := some s.timerGen,
      pending := [⟨s.timerGen, now.timestamp + max 0 (t - now.timestamp)⟩],
      timerGen := s.timerGen + 1 } : CoreState).timer = some ti.gen := by
    intro ti hti
    simp only [List.mem_singleton] at hti
    subst hti
    rfl
  have h2 := start_combined_thread_shape now' _ sc hsc1 hen t' hcalc' hpos'
    hinv1
  exact ⟨_, _, h1, h2, rfl, rfl, rfl, rfl, rfl⟩

/-- Witness for C3 corrected: two consecutive starts from the idle state
leave two loop threads. -/
theorem start_twice_two_loops_witness :
    ((start_combined_thread epochClock enabledIdleState).bind
        (fun s1 => start_combined_thread epochClock s1)).map
      CoreState.loopThreads = .ok 2 := by
  obtain ⟨s1, s2, h1, h2, _, hl2, _, _, _⟩ :=
    start_twice_two_loops epochClock epochClock enabledIdleState
      ⟨true, 10, 30⟩ rfl rfl (fun ti hti => absurd hti (List.not_mem_nil ti))
      (by norm_num [epochClock]) (by norm_num [epochClock])
      (by norm_num [epochClock]) (by norm_num [epochClock])
  rw [h1]
  simp only [Except.bind, Except.map, h2]
  rw [hl2]
  rfl

/-! ## C8 -/

/-- The full shape of stop_combined_thread from a running state with an
armed timer: the loop is signalled, the timer cancelled, and the transient
state cleared. -/
theorem stop_clears (s : CoreState) (g : ℕ) (hrun : s.running = true)
    (htimer : s.timer = some g)
    (hinv : ∀ ti ∈ s.pending, s.timer = some ti.gen) :
    stop_combined_thread s =
      { s with
          running := false,
          scheduler_running := false,
          config := none,
          schedule_config := none,
          timer := none,
          pending := [],
          next_run_time := none } := by
  simp [stop_combined_thread, hrun, htimer]
  intro ti hti
  have h2 := hinv ti hti
  rw [htimer] at h2
  injection h2 with h3
  exact h3.symm

/-- The full shape of the caller's start sequence from a cleared state with
an existing, parsed, enabled configuration: the config is loaded, the watch
timestamp recorded, and the loop started with one fresh timer armed. -/
theorem startController_shape (f : FileState) (c : Config)
    (sc : ScheduleConfig) (now : WallClock) (s : CoreState) (t : ℚ)
    (hc : f.content = some c) (hsch : c.schedule = some sc)
    (hen : sc.enabled = true) (hcfg : s.config = none)
    (hinv : ∀ ti ∈ s.pending, s.timer = some ti.gen)
    (hcalc : calculate_next_run_time (some sc) now = some t) (hpos : 0 < t) :
    startController (some f) now s =
      .ok { cancelTimer s with
              running := true,
              loopThreads := s.loopThreads + 1,
              config := some c,
              config_last_modified := f.mtime,
              schedule_config := some sc,
              next_run_time := some t,
              timer := some s.timerGen,
              pending := [⟨s.timerGen,
                now.timestamp + max 0 (t - now.timestamp)⟩],
              timerGen := s.timerGen + 1 } := by
  have hsetup : setup_automation (some f) s =
      .ok { s with
              config := some c,
              config_last_modified := f.mtime,
              schedule_config := some sc } := by
    simp only [setup_automation, hcfg, load_or_create_config, hc]
    show (Except.ok { s with
            config := some c,
            config_last_modified := f.mtime,
            schedule_config := c.schedule } : Except ConfigError CoreState) = _
    rw [hsch]
  simp only [startController, hsetup]
  show start_combined_thread now
      { s with
          config := some c,
          config_last_modified := f.mtime,
          schedule_config := some sc } = _
  rw [start_combined_thread_shape now
    { s with
        config := some c,
        config_last_modified := f.mtime,
        schedule_config := some sc } sc rfl hen t hcalc hpos
    (fun ti hti => hinv ti hti)]
  cases h : s.timer <;> simp [cancelTimer, h]

/-- C8: stop from a running state signals the loop, cancels the armed timer
(leaving no pending timer that could still fire), and clears the transient
state; an immediately following start with an existing enabled configuration
re-establishes scheduling: a fresh next run instant is computed and the one
armed timer is of a fresh generation, distinct from every timer of the prior
run, so no residual timer from the prior run ever fires. -/
theorem stop_then_start (fs : Option FileState) (f : FileState) (c : Config)
    (sc : ScheduleConfig) (now : WallClock) (s : CoreState) (g : ℕ)
    (hfs : fs = some f) (hc : f.content = some c)
    (hsch : c.schedule = some sc) (hen : sc.enabled = true)
    (hrun : s.running = true) (htimer : s.timer = some g)
    (hinv : ∀ ti ∈ s.pending, s.timer = some ti.gen)
    (hgen : ∀ ti ∈ s.pending, ti.gen < s.timerGen)
    (hd : 0 ≤ now.dayStart) (hsec : 0 ≤ now.secOfDay) :
    (stop_combined_thread s).running = false ∧
    (stop_combined_thread s).timer = none ∧
    (stop_combined_thread s).pending = [] ∧
    (stop_combined_thread s).next_run_time = none ∧
    ∃ s2 t, startController fs now (stop_combined_thread s) = .ok s2 ∧
      calculate_next_run_time (some sc) now = some t ∧
      s2.running = true ∧ s2.next_run_time = some t ∧
      s2.pending = [⟨s.timerGen,
        now.timestamp + max 0 (t - now.timestamp)⟩] ∧
      ∀ ti ∈ s.pending, ∀ ti2 ∈ s2.pending, ti2.gen ≠ ti.gen := by
  have hstop := stop_clears s g hrun htimer hinv
  obtain ⟨t, hcalc⟩ := calculate_next_run_time_enabled sc now hen
  have hpos := calculate_next_run_time_pos (some sc) now t hd hsec hcalc
  subst hfs
  have hshape := startController_shape f c sc now
    { s with
        running := false,
        scheduler_running := false,
        config := none,
        schedule_config := none,
        timer := none,
        pending := [],
        next_run_time := none } t hc hsch hen rfl
    (fun ti hti => absurd hti (List.not_mem_nil ti)) hcalc hpos
  refine ⟨by rw [hstop], by rw [hstop], by rw [hstop], by rw [hstop], ?_⟩
  rw [hstop]
  refine ⟨_, t, hshape, hcalc, rfl, rfl, rfl, ?_⟩
  intro ti hti ti2 hti2
  simp only [List.mem_singleton] at hti2
  subst hti2
  show s.timerGen ≠ ti.gen
  have hlt := hgen ti hti
  omega

/-- Witness for C8 from the started controller: stop clears the loop flag
and every pending timer, and the subsequent start arms one fresh timer. -/
theorem stop_then_start_witness :
    (stop_combined_thread startedOnce).running = false ∧
      (stop_combined_thread startedOnce).pending = [] ∧
      (stop_combined_thread startedOnce).next_run_time = none := by
  have h := stop_then_start (some goodFile) goodFile ⟨some ⟨true, 10, 30⟩⟩
    ⟨true, 10, 30⟩ epochClock startedOnce 0 rfl rfl rfl rfl rfl rfl
    (by
      intro ti hti
      simp only [startedOnce, List.mem_singleton] at hti
      subst hti
      rfl)
    (by
      intro ti hti
      simp only [startedOnce, List.mem_singleton] at hti
      subst hti
      decide)
    (by norm_num [epochClock]) (by norm_num [epochClock])
  exact ⟨h.1, h.2.2.1, h.2.2.2.1⟩

end HealthCheck
